import Mathlib

/-!
# SmartLink (`src/app.js`): identifier lifecycle, expiry and click accounting

A shallow embedding of the three code paths of `app.js` that touch the `urls`
table and the Prometheus counters:

* `POST /shorten` (lines 106-160): `shorten`,
* `GET /:id` (lines 173-192): `resolve`, split into the `SELECT` and the
  callback that runs on its result,
* the 60-second cleanup timer (lines 54-64): `cleanup`.

Modelling decisions, all stated where they are used:

* A time value is an `Int`, milliseconds since 1970-01-01T00:00:00Z, as in
  ECMAScript. The range limit of `Date` (8.64e15 ms) is not modelled: every
  time value here is the system clock plus at most seven days.
* The local-time methods of `Date` (`getHours`, `setHours`, `getDate`,
  `setDate`) depend on the time zone of the process; it is the parameter `Zone`.
* The table is a list of rows in insertion order. SQLite `INTEGER` (64 bit) is
  `Nat`: `clicks` starts at 0 and moves by one per request.
* `expires_at` holds the text written by `Date.prototype.toISOString`. A row
  carries the time value that text denotes; the text itself is `toISOString`
  of it, and it is the text that the cleanup statement compares. `new Date(text)`
  gives the time value back (ECMAScript 21.4.3.2: parsing the output of
  `toISOString` returns the original time value).
* `nanoid(6)` is an input: the identifier the generator returned.
-/

namespace SmartLink

/-! ## ECMAScript time arithmetic (ECMA-262, 21.4.1) -/

def msPerSecond : Int := 1000
def msPerMinute : Int := 60000
def msPerHour : Int := 3600000
def msPerDay : Int := 86400000

/-- Day number of a time value: `floor(t / msPerDay)`. -/
def Day (t : Int) : Int := t / msPerDay

/-- Milliseconds since the start of the day: `t modulo msPerDay`. -/
def TimeWithinDay (t : Int) : Int := t % msPerDay

def DaysInYear (y : Int) : Int :=
  if y % 4 ≠ 0 then 365
  else if y % 100 ≠ 0 then 366
  else if y % 400 ≠ 0 then 365
  else 366

/-- Day number of the first day of year `y`. -/
def DayFromYear (y : Int) : Int :=
  365 * (y - 1970) + (y - 1969) / 4 - (y - 1901) / 100 + (y - 1601) / 400

/-- Upward search for the year of a day at or after 1970. -/
def yearUp : Nat → Int → Int → Int
  | 0, _, y => y
  | k + 1, day, y => if DayFromYear (y + 1) ≤ day then yearUp k day (y + 1) else y

/-- Downward search for the year of a day before 1970. -/
def yearDown : Nat → Int → Int → Int
  | 0, _, y => y
  | k + 1, day, y => if day < DayFromYear y then yearDown k day (y - 1) else y

/-- The largest year `y` whose first day is not after `t`. A year has at least
365 days, so `|Day t| / 365 + 1` steps from 1970 are enough. -/
def YearFromTime (t : Int) : Int :=
  if 0 ≤ Day t then yearUp ((Day t).toNat / 365 + 1) (Day t) 1970
  else yearDown ((Day t).natAbs / 365 + 1) (Day t) 1969

/-- One in a leap year, zero otherwise. -/
def InLeapYear (t : Int) : Int :=
  if DaysInYear (YearFromTime t) = 366 then 1 else 0

def DayWithinYear (t : Int) : Int := Day t - DayFromYear (YearFromTime t)

/-- Day within the year on which month `m` (0 = January) starts. -/
def monthStart (m leap : Int) : Int :=
  if m = 0 then 0
  else if m = 1 then 31
  else if m = 2 then 59 + leap
  else if m = 3 then 90 + leap
  else if m = 4 then 120 + leap
  else if m = 5 then 151 + leap
  else if m = 6 then 181 + leap
  else if m = 7 then 212 + leap
  else if m = 8 then 243 + leap
  else if m = 9 then 273 + leap
  else if m = 10 then 304 + leap
  else 334 + leap

/-- The month (0 = January) of day `d` of a year. -/
def monthOfDay (d leap : Int) : Int :=
  if d < 31 then 0
  else if d < 59 + leap then 1
  else if d < 90 + leap then 2
  else if d < 120 + leap then 3
  else if d < 151 + leap then 4
  else if d < 181 + leap then 5
  else if d < 212 + leap then 6
  else if d < 243 + leap then 7
  else if d < 273 + leap then 8
  else if d < 304 + leap then 9
  else if d < 334 + leap then 10
  else 11

def MonthFromTime (t : Int) : Int := monthOfDay (DayWithinYear t) (InLeapYear t)

/-- Day of the month, 1-based. -/
def DateFromTime (t : Int) : Int :=
  DayWithinYear t - monthStart (MonthFromTime t) (InLeapYear t) + 1

def HourFromTime (t : Int) : Int := (t / msPerHour) % 24
def MinFromTime (t : Int) : Int := (t / msPerMinute) % 60
def SecFromTime (t : Int) : Int := (t / msPerSecond) % 60
def msFromTime (t : Int) : Int := t % msPerSecond

def MakeTime (hour min sec ms : Int) : Int :=
  hour * msPerHour + min * msPerMinute + sec * msPerSecond + ms

/-- Day number of day `date` of month `month` of year `year`; months beyond
0..11 carry into the year, days beyond the month carry on. -/
def MakeDay (year month date : Int) : Int :=
  let ym := year + month / 12
  let mn := month % 12
  DayFromYear ym + monthStart mn (if DaysInYear ym = 366 then 1 else 0) + date - 1

def MakeDate (day time : Int) : Int := day * msPerDay + time

/-- The time zone of the process: the local offset in milliseconds at a UTC
time value (`LocalTZA(t, true)`) and at a local time value (`LocalTZA(t, false)`).
A local clock reading a day or more ahead of the present one never denotes an
instant in the past (`ahead`): no zone has moved its clocks by more than a day. -/
structure Zone where
  offsetAt : Int → Int
  offsetOfLocal : Int → Int
  ahead : ∀ t d, msPerDay ≤ d → offsetOfLocal (t + offsetAt t + d) - offsetAt t ≤ d

def LocalTime (z : Zone) (t : Int) : Int := t + z.offsetAt t

def UTC (z : Zone) (t : Int) : Int := t - z.offsetOfLocal t

/-- `Date.prototype.getHours`. -/
def getHours (z : Zone) (t : Int) : Int := HourFromTime (LocalTime z t)

/-- `Date.prototype.setHours(hour)`: the new time value. -/
def setHours (z : Zone) (t hour : Int) : Int :=
  let tl := LocalTime z t
  UTC z (MakeDate (Day tl) (MakeTime hour (MinFromTime tl) (SecFromTime tl) (msFromTime tl)))

/-- `Date.prototype.getDate`. -/
def getDate (z : Zone) (t : Int) : Int := DateFromTime (LocalTime z t)

/-- `Date.prototype.setDate(date)`: the new time value. -/
def setDate (z : Zone) (t date : Int) : Int :=
  let tl := LocalTime z t
  UTC z (MakeDate (MakeDay (YearFromTime tl) (MonthFromTime tl) date) (TimeWithinDay tl))

/-! ## Text forms of a time value -/

/-- The `w` low decimal digits of `n`, most significant first. -/
def digits : Nat → Nat → List Char
  | 0, _ => []
  | w + 1, n => digits w (n / 10) ++ [Char.ofNat (48 + n % 10)]

/-- The year as `toISOString` prints it: four digits from 0 to 9999, a sign and
six digits otherwise. -/
def isoYear (y : Int) : List Char :=
  if 0 ≤ y ∧ y ≤ 9999 then digits 4 y.toNat
  else if 0 ≤ y then '+' :: digits 6 y.toNat
  else '-' :: digits 6 y.natAbs

/-- `Date.prototype.toISOString`: `YYYY-MM-DDTHH:mm:ss.sssZ`, in UTC. -/
def toISOString (t : Int) : String :=
  String.mk (isoYear (YearFromTime t) ++ ['-'] ++ digits 2 (MonthFromTime t + 1).toNat ++ ['-']
    ++ digits 2 (DateFromTime t).toNat ++ ['T'] ++ digits 2 (HourFromTime t).toNat ++ [':']
    ++ digits 2 (MinFromTime t).toNat ++ [':'] ++ digits 2 (SecFromTime t).toNat ++ ['.']
    ++ digits 3 (msFromTime t).toNat ++ ['Z'])

/-- SQLite `datetime('now')` and `CURRENT_TIMESTAMP` at time value `t`:
`YYYY-MM-DD HH:MM:SS`, in UTC, the milliseconds dropped. -/
def sqliteDatetime (t : Int) : String :=
  String.mk (digits 4 (YearFromTime t).toNat ++ ['-'] ++ digits 2 (MonthFromTime t + 1).toNat
    ++ ['-'] ++ digits 2 (DateFromTime t).toNat ++ [' '] ++ digits 2 (HourFromTime t).toNat
    ++ [':'] ++ digits 2 (MinFromTime t).toNat ++ [':'] ++ digits 2 (SecFromTime t).toNat)

/-- SQLite's `BINARY` collation on two texts: the first differing character
decides, and a proper prefix is smaller. -/
def memcmpLt : List Char → List Char → Bool
  | [], [] => false
  | [], _ :: _ => true
  | _ :: _, [] => false
  | a :: as, b :: bs =>
    if a.toNat < b.toNat then true
    else if b.toNat < a.toNat then false
    else memcmpLt as bs

/-- SQL `a < b` on two `TEXT` values. -/
def textLt (a b : String) : Bool := memcmpLt a.data b.data

/-! ## The `urls` table and the counters -/

/-- A row of `urls` (lines 40-48). `expires_at` is `NULL` or the time value
whose `toISOString` text the column holds; `created_at` is the text of
`CURRENT_TIMESTAMP`. -/
structure Row where
  id : String
  original : String
  clicks : Nat
  expires_at : Option Int
  created_at : String
  deriving DecidableEq, Repr

/-- The table and the three counters of lines 17-33. -/
structure State where
  rows : List Row
  urlsCreated : Nat
  urlsRedirected : Nat
  urlsExpired : Nat
  deriving DecidableEq, Repr

/-- The database file before the first insert, the counters at zero. -/
def State.init : State := ⟨[], 0, 0, 0⟩

/-- What a handler sends back. -/
inductive Response where
  | badRequest
  | databaseError
  | created (id : String) (expiresAt : Option Int)
  | notFound
  | gone
  | redirect (location : String)
  deriving DecidableEq, Repr

/-- The HTTP status of a response (`res.redirect` answers 302). -/
def Response.status : Response → Nat
  | .badRequest => 400
  | .databaseError => 500
  | .created _ _ => 200
  | .notFound => 404
  | .gone => 410
  | .redirect _ => 302

/-- `SELECT * FROM urls WHERE id = ?` through `db.get`: the first matching row. -/
def dbGet (rows : List Row) (id : String) : Option Row :=
  rows.find? (fun r => r.id == id)

/-- `INSERT INTO urls (id, original, expires_at) VALUES (?, ?, ?)` at time
`now`: the primary key rejects an `id` already in the table; `clicks` and
`created_at` take their defaults. -/
def dbInsert (rows : List Row) (id original : String) (expiresAt : Option Int) (now : Int) :
    Except Unit (List Row) :=
  if rows.any (fun r => r.id == id) then .error ()
  else .ok (rows ++ [⟨id, original, 0, expiresAt, sqliteDatetime now⟩])

/-- `DELETE FROM urls WHERE id = ?`. -/
def dbDelete (rows : List Row) (id : String) : List Row :=
  rows.filter (fun r => r.id != id)

/-- `UPDATE urls SET clicks = clicks + 1 WHERE id = ?`. -/
def dbIncrementClicks (rows : List Row) (id : String) : List Row :=
  rows.map (fun r => if r.id = id then { r with clicks := r.clicks + 1 } else r)

/-- The `WHERE` clause of the cleanup statement (line 56) on one row:
`expires_at IS NOT NULL AND expires_at < datetime("now")`, a comparison of two
texts. (`"now"` names no column, so SQLite reads it as the string `'now'`.) -/
def sweepMatches (now : Int) (r : Row) : Bool :=
  match r.expires_at with
  | none => false
  | some e => textLt (toISOString e) (sqliteDatetime now)

/-- `DELETE FROM urls WHERE expires_at IS NOT NULL AND expires_at < datetime("now")`:
the rows left and `this.changes`. -/
def dbDeleteExpired (rows : List Row) (now : Int) : List Row × Nat :=
  let kept := rows.filter (fun r => !sweepMatches now r)
  (kept, rows.length - kept.length)

/-! ## The handlers -/

/-- One run of the cleanup timer (lines 54-64) at time `now`. -/
def cleanup (s : State) (now : Int) : State :=
  let (kept, changes) := dbDeleteExpired s.rows now
  if changes > 0 then { s with rows := kept, urlsExpired := s.urlsExpired + changes }
  else { s with rows := kept }

/-- The expiry logic of `POST /shorten` (lines 111-122); `now` is `new Date()`. -/
def expiryLogic (z : Zone) (expiry : Option String) (now : Int) : Option Int :=
  if expiry = some "24h" then some (setHours z now (getHours z now + 24))
  else if expiry = some "7d" then some (setDate z now (getDate z now + 7))
  else none

/-- JavaScript truthiness of `req.body.url`: a missing value and the empty
string are falsy. -/
def truthy : Option String → Bool
  | none => false
  | some u => u != ""

/-- `POST /shorten` (lines 106-160) with body fields `url` and `expiry`, `id`
the result of `nanoid(6)`, at time `now`. -/
def shorten (z : Zone) (s : State) (url expiry : Option String) (id : String) (now : Int) :
    State × Response :=
  if !truthy url then (s, .badRequest)
  else
    let expiresAt := expiryLogic z expiry now
    match dbInsert s.rows id (url.getD "") expiresAt now with
    | .error _ => (s, .databaseError)
    | .ok rows => ({ s with rows := rows, urlsCreated := s.urlsCreated + 1 }, .created id expiresAt)

/-- The expiry check of `GET /:id` (line 180):
`row.expires_at && new Date(row.expires_at) < new Date()`. -/
def expiredAt (row : Row) (now : Int) : Bool :=
  match row.expires_at with
  | none => false
  | some e => decide (e < now)

/-- The callback of `db.get` in `GET /:id` (lines 174-191): `row` is what the
`SELECT` returned, `s` the state when the callback runs, `now` its `new Date()`. -/
def resolveCallback (s : State) (id : String) (row : Option Row) (now : Int) : State × Response :=
  match row with
  | none => (s, .notFound)
  | some row =>
    if expiredAt row now then
      ({ s with rows := dbDelete s.rows id, urlsExpired := s.urlsExpired + 1 }, .gone)
    else
      ({ s with rows := dbIncrementClicks s.rows id, urlsRedirected := s.urlsRedirected + 1 },
        .redirect row.original)

/-- `GET /:id` (lines 173-192) with nothing running between the `SELECT` and
its callback. (`/` and `/metrics` are taken by earlier routes; an id from
`nanoid(6)` is six characters and always reaches this handler.) -/
def resolve (s : State) (id : String) (now : Int) : State × Response :=
  resolveCallback s id (dbGet s.rows id) now

/-! ## Sequences of requests -/

/-- A request or a timer run. -/
inductive Op where
  | create (url expiry : Option String) (id : String) (now : Int)
  | resolve (id : String) (now : Int)
  | sweep (now : Int)

def step (z : Zone) (s : State) : Op → State
  | .create url expiry id now => (shorten z s url expiry id now).1
  | .resolve id now => (resolve s id now).1
  | .sweep now => cleanup s now

/-- The state after a sequence of operations. -/
def run (z : Zone) (s : State) (ops : List Op) : State := ops.foldl (step z) s

/-! ## Interleaving of the timer with the store calls of `GET /:id` -/

/-- The state together with the `SELECT` results whose callbacks have not run
yet, and the number of rows removed from the table so far. -/
structure Sys where
  st : State
  pending : List (String × Option Row)
  removed : Nat
  deriving DecidableEq, Repr

/-- The store calls, one at a time: a timer run, the `SELECT` of a `GET /:id`,
and the callback of the oldest finished `SELECT`. -/
inductive Event where
  | tick (now : Int)
  | select (id : String)
  | callback (now : Int)

def Sys.step (y : Sys) : Event → Sys
  | .tick now =>
    let s := cleanup y.st now
    { y with st := s, removed := y.removed + (y.st.rows.length - s.rows.length) }
  | .select id => { y with pending := y.pending ++ [(id, dbGet y.st.rows id)] }
  | .callback now =>
    match y.pending with
    | [] => y
    | (id, row) :: rest =>
      let s := (resolveCallback y.st id row now).1
      { st := s, pending := rest, removed := y.removed + (y.st.rows.length - s.rows.length) }

def Sys.run (y : Sys) (es : List Event) : Sys := es.foldl Sys.step y

/-! ## The retry loop of the specification -/

/-- Outcome of `LinkService.Create` in the specification. -/
inductive CreateResult where
  | invalidUrl
  | exhausted
  | record (id : String) (expiresAt : Option Int)
  deriving DecidableEq, Repr

/-- Follows the words of the specification (4.6), not the code: validate the
url, compute the expiry, then up to five times take the next generated id and
insert; the first id that is free gives the record, five collisions give
`Exhausted`. `ids` are the generator's successive results. -/
def specCreate (z : Zone) (s : State) (url expiry : Option String) (ids : List String)
    (now : Int) : State × CreateResult :=
  if !truthy url then (s, .invalidUrl)
  else
    let expiresAt := expiryLogic z expiry now
    match (ids.take 5).find? (fun id => (dbGet s.rows id).isNone) with
    | none => (s, .exhausted)
    | some id =>
      ({ s with rows := s.rows ++ [⟨id, url.getD "", 0, expiresAt, sqliteDatetime now⟩],
                urlsCreated := s.urlsCreated + 1 }, .record id expiresAt)

/-! ## Two concrete zones -/

/-- A process running in UTC. -/
def utc : Zone := ⟨fun _ => 0, fun _ => 0, by intro t d; simp only [msPerDay]; omega⟩

/-- The rules of America/New_York around 8 March 2026: UTC-5 until
07:00:00Z that day, UTC-4 from then on; the local hour from 02:00 to 03:00 is
skipped and read with the offset before the change. -/
def newYork : Zone :=
  ⟨fun t => if t < 1772953200000 then -18000000 else -14400000,
   fun l => if l < 1772938800000 then -18000000 else -14400000,
   by intro t d; simp only [msPerDay]; split <;> split <;> omega⟩

/-! ## Sample data -/

/-- A link created on 2026-11-05 at 10:00:00Z with `expiry = 24h`: it expires
at 1793959200000, which is 2026-11-06T10:00:00.000Z. -/
def sampleRow : Row :=
  ⟨"abc123", "https://example.com/a", 0, some 1793959200000, "2026-11-05 10:00:00"⟩

def sampleState : State := ⟨[sampleRow], 1, 0, 0⟩

/-- A link that expired at 1793872800000, which is 2026-11-05T10:00:00.000Z. -/
def oldRow : Row :=
  ⟨"abc123", "https://example.com/a", 0, some 1793872800000, "2026-11-04 10:00:00"⟩

def oldState : State := ⟨[oldRow], 1, 0, 0⟩

/-- 2026-11-06T12:00:00.000Z. -/
def noon : Int := 1793966400000

/-! ## Lemmas on the table operations -/

theorem dbGet_eq_none_iff (rows : List Row) (id : String) :
    dbGet rows id = none ↔ ∀ r ∈ rows, r.id ≠ id := by
  simp [dbGet, List.find?_eq_none]

theorem any_id_iff (rows : List Row) (id : String) :
    rows.any (fun r => r.id == id) = true ↔ ∃ r ∈ rows, r.id = id := by
  simp [List.any_eq_true]

theorem mem_dbDelete (rows : List Row) (id : String) (r : Row) :
    r ∈ dbDelete rows id ↔ r ∈ rows ∧ r.id ≠ id := by
  simp [dbDelete, List.mem_filter]

theorem dbGet_dbDelete_self (rows : List Row) (id : String) :
    dbGet (dbDelete rows id) id = none := by
  rw [dbGet_eq_none_iff]
  intro r hr
  exact ((mem_dbDelete rows id r).1 hr).2

theorem dbGet_dbDelete_other (rows : List Row) (id other : String) (h : other ≠ id) :
    dbGet (dbDelete rows id) other = dbGet rows other := by
  induction rows with
  | nil => rfl
  | cons r rs ih =>
    by_cases hr : r.id = id
    · have h1 : dbDelete (r :: rs) id = dbDelete rs id := by simp [dbDelete, hr]
      have h2 : dbGet (r :: rs) other = dbGet rs other := by
        have : ¬ r.id = other := by rw [hr]; exact fun e => h e.symm
        simp [dbGet, List.find?_cons, this]
      rw [h1, h2, ih]
    · have h1 : dbDelete (r :: rs) id = r :: dbDelete rs id := by simp [dbDelete, hr]
      rw [h1]
      by_cases ho : r.id = other
      · simp [dbGet, List.find?_cons, ho]
      · have e1 : dbGet (r :: dbDelete rs id) other = dbGet (dbDelete rs id) other := by
          simp [dbGet, List.find?_cons, ho]
        have e2 : dbGet (r :: rs) other = dbGet rs other := by
          simp [dbGet, List.find?_cons, ho]
        rw [e1, e2, ih]

theorem dbGet_cons (r : Row) (rs : List Row) (id : String) :
    dbGet (r :: rs) id = if r.id = id then some r else dbGet rs id := by
  by_cases h : r.id = id <;> simp [dbGet, List.find?_cons, h]

theorem dbIncrementClicks_cons (r : Row) (rs : List Row) (id : String) :
    dbIncrementClicks (r :: rs) id =
      (if r.id = id then { r with clicks := r.clicks + 1 } else r) :: dbIncrementClicks rs id :=
  rfl

theorem dbGet_increment_self (rows : List Row) (id : String) (row : Row)
    (h : dbGet rows id = some row) :
    dbGet (dbIncrementClicks rows id) id = some { row with clicks := row.clicks + 1 } := by
  induction rows with
  | nil => simp [dbGet] at h
  | cons r rs ih =>
    rw [dbGet_cons] at h
    rw [dbIncrementClicks_cons, dbGet_cons]
    by_cases hr : r.id = id
    · rw [if_pos hr] at h
      have hrow : r = row := Option.some.inj h
      subst hrow
      simp [hr]
    · rw [if_neg hr] at h
      simp [hr, ih h]

theorem dbGet_increment_other (rows : List Row) (id other : String) (h : other ≠ id) :
    dbGet (dbIncrementClicks rows id) other = dbGet rows other := by
  induction rows with
  | nil => rfl
  | cons r rs ih =>
    rw [dbIncrementClicks_cons, dbGet_cons, dbGet_cons, ih]
    by_cases hr : r.id = id
    · have ho : ¬ r.id = other := by rw [hr]; exact fun e => h e.symm
      simp [hr, ho, h.symm]
    · simp [hr]

theorem ids_dbIncrementClicks (rows : List Row) (id : String) :
    (dbIncrementClicks rows id).map Row.id = rows.map Row.id := by
  induction rows with
  | nil => rfl
  | cons r rs ih =>
    have := ih
    simp only [dbIncrementClicks] at this
    by_cases hr : r.id = id <;> simp [dbIncrementClicks, hr, this]

theorem mem_dbIncrementClicks_of_ne (rows : List Row) (id : String) (r : Row)
    (hr : r ∈ rows) (hne : r.id ≠ id) : r ∈ dbIncrementClicks rows id := by
  simp only [dbIncrementClicks, List.mem_map]
  exact ⟨r, hr, by simp [hne]⟩

theorem dbGet_append_new (rows : List Row) (r : Row) (h : dbGet rows r.id = none) :
    dbGet (rows ++ [r]) r.id = some r := by
  simp only [dbGet] at h
  simp [dbGet, List.find?_append, h]

theorem dbGet_append_other (rows : List Row) (r : Row) (other : String) (h : r.id ≠ other) :
    dbGet (rows ++ [r]) other = dbGet rows other := by
  simp [dbGet, List.find?_append, h]

/-! ## Lemmas on the expiry arithmetic -/

theorem ite_month_range (c : Prop) [Decidable c] (a b : Int) (ha : 0 ≤ a ∧ a ≤ 11)
    (hb : 0 ≤ b ∧ b ≤ 11) : 0 ≤ (if c then a else b) ∧ (if c then a else b) ≤ 11 := by
  by_cases h : c
  · rw [if_pos h]; exact ha
  · rw [if_neg h]; exact hb

theorem monthOfDay_range (d leap : Int) : 0 ≤ monthOfDay d leap ∧ monthOfDay d leap ≤ 11 := by
  unfold monthOfDay
  repeat' apply ite_month_range
  all_goals decide

theorem MonthFromTime_range (t : Int) : 0 ≤ MonthFromTime t ∧ MonthFromTime t ≤ 11 :=
  monthOfDay_range _ _

/-- Setting the local hour to the current local hour plus 24 moves the local
time value forward by one day. -/
theorem setHours_getHours_add (z : Zone) (t : Int) :
    setHours z t (getHours z t + 24) = UTC z (LocalTime z t + 86400000) := by
  unfold setHours getHours
  simp only []
  congr 1
  unfold MakeDate MakeTime Day HourFromTime MinFromTime SecFromTime msFromTime msPerDay msPerHour
    msPerMinute msPerSecond
  omega

/-- Setting the local day of the month to the current one plus 7 moves the
local time value forward by seven days. -/
theorem setDate_getDate_add (z : Zone) (t : Int) :
    setDate z t (getDate z t + 7) = UTC z (LocalTime z t + 604800000) := by
  unfold setDate getDate
  simp only []
  congr 1
  have hm := MonthFromTime_range (LocalTime z t)
  have h12 : MonthFromTime (LocalTime z t) / 12 = 0 := by omega
  have hmod : MonthFromTime (LocalTime z t) % 12 = MonthFromTime (LocalTime z t) := by omega
  have hday : MakeDay (YearFromTime (LocalTime z t)) (MonthFromTime (LocalTime z t))
      (DateFromTime (LocalTime z t) + 7) = Day (LocalTime z t) + 7 := by
    unfold MakeDay DateFromTime DayWithinYear InLeapYear
    simp only [h12, hmod, add_zero]
    omega
  rw [hday]
  unfold MakeDate Day TimeWithinDay msPerDay
  omega

theorem expiryLogic_24h (z : Zone) (now : Int) :
    expiryLogic z (some "24h") now = some (UTC z (LocalTime z now + 86400000)) := by
  simp [expiryLogic, setHours_getHours_add]

theorem expiryLogic_7d (z : Zone) (now : Int) :
    expiryLogic z (some "7d") now = some (UTC z (LocalTime z now + 604800000)) := by
  have h : ¬ ((some "7d" : Option String) = some "24h") := by decide
  simp [expiryLogic, h, setDate_getDate_add]

theorem expiryLogic_other (z : Zone) (expiry : Option String) (now : Int)
    (h24 : expiry ≠ some "24h") (h7 : expiry ≠ some "7d") : expiryLogic z expiry now = none := by
  simp [expiryLogic, h24, h7]

/-- An expiry computed at `now` is never before `now`. -/
theorem expiryLogic_not_before (z : Zone) (expiry : Option String) (now e : Int)
    (h : expiryLogic z expiry now = some e) : now ≤ e := by
  by_cases h24 : expiry = some "24h"
  · subst h24
    rw [expiryLogic_24h] at h
    have hs := z.ahead now 86400000 (by unfold msPerDay; omega)
    simp only [UTC, LocalTime, Option.some.injEq] at h hs
    omega
  · by_cases h7 : expiry = some "7d"
    · subst h7
      rw [expiryLogic_7d] at h
      have hs := z.ahead now 604800000 (by unfold msPerDay; omega)
      simp only [UTC, LocalTime, Option.some.injEq] at h hs
      omega
    · rw [expiryLogic_other z expiry now h24 h7] at h
      exact absurd h (by simp)

/-- With a non-empty url and a free id, `POST /shorten` succeeds. -/
theorem shorten_free (z : Zone) (s : State) (url expiry : Option String) (id : String)
    (now : Int) (hu : truthy url = true) (hfree : ∀ r ∈ s.rows, r.id ≠ id) :
    shorten z s url expiry id now =
      ({ s with rows := s.rows ++ [⟨id, url.getD "", 0, expiryLogic z expiry now, sqliteDatetime now⟩],
                urlsCreated := s.urlsCreated + 1 }, Response.created id (expiryLogic z expiry now)) := by
  have hany : ¬ s.rows.any (fun r => r.id == id) = true := by
    intro h
    obtain ⟨r, hr, hid⟩ := (any_id_iff s.rows id).1 h
    exact hfree r hr hid
  simp [shorten, hu, dbInsert, hany]

/-- With an id already in the table, `POST /shorten` answers 500 and changes
nothing. -/
theorem shorten_taken (z : Zone) (s : State) (url expiry : Option String) (id : String)
    (now : Int) (hu : truthy url = true) (r : Row) (hr : r ∈ s.rows) (hid : r.id = id) :
    shorten z s url expiry id now = (s, Response.databaseError) := by
  have hany : s.rows.any (fun r => r.id == id) = true := (any_id_iff s.rows id).2 ⟨r, hr, hid⟩
  simp [shorten, hu, dbInsert, hany]

/-- What a successful `POST /shorten` did: the url was non-empty, the id was
free, and the new row is appended. -/
theorem shorten_created (z : Zone) (s : State) (url expiry : Option String) (id : String)
    (now : Int) (rid : String) (ea : Option Int)
    (h : (shorten z s url expiry id now).2 = Response.created rid ea) :
    truthy url = true ∧ dbGet s.rows id = none ∧ rid = id ∧ ea = expiryLogic z expiry now ∧
    (shorten z s url expiry id now).1 =
      { s with rows := s.rows ++ [⟨id, url.getD "", 0, expiryLogic z expiry now, sqliteDatetime now⟩],
               urlsCreated := s.urlsCreated + 1 } := by
  by_cases hu : truthy url = true
  · by_cases hfree : ∀ r ∈ s.rows, r.id ≠ id
    · rw [shorten_free z s url expiry id now hu hfree] at h ⊢
      simp only [Response.created.injEq] at h
      exact ⟨hu, (dbGet_eq_none_iff s.rows id).2 hfree, h.1.symm, h.2.symm, rfl⟩
    · push_neg at hfree
      obtain ⟨r, hr, hid⟩ := hfree
      rw [shorten_taken z s url expiry id now hu r hr hid] at h
      simp at h
  · simp [shorten, hu] at h

/-! ## Lemmas on the ids in the table -/

theorem nodup_ids_filter (rows : List Row) (p : Row → Bool) (h : (rows.map Row.id).Nodup) :
    ((rows.filter p).map Row.id).Nodup :=
  List.Nodup.sublist (List.Sublist.map Row.id (List.filter_sublist rows)) h

theorem nodup_ids_cleanup (s : State) (now : Int) (h : (s.rows.map Row.id).Nodup) :
    ((cleanup s now).rows.map Row.id).Nodup := by
  have hk := nodup_ids_filter s.rows (fun r => !sweepMatches now r) h
  unfold cleanup dbDeleteExpired
  simp only []
  split <;> exact hk

theorem nodup_ids_resolveCallback (s : State) (id : String) (row : Option Row) (now : Int)
    (h : (s.rows.map Row.id).Nodup) :
    ((resolveCallback s id row now).1.rows.map Row.id).Nodup := by
  unfold resolveCallback
  cases row with
  | none => exact h
  | some row =>
    simp only []
    split
    · exact nodup_ids_filter s.rows (fun r => r.id != id) h
    · show ((dbIncrementClicks s.rows id).map Row.id).Nodup
      rw [ids_dbIncrementClicks]
      exact h

theorem nodup_ids_shorten (z : Zone) (s : State) (url expiry : Option String) (id : String)
    (now : Int) (h : (s.rows.map Row.id).Nodup) :
    ((shorten z s url expiry id now).1.rows.map Row.id).Nodup := by
  by_cases hu : truthy url = true
  · by_cases hfree : ∀ r ∈ s.rows, r.id ≠ id
    · rw [shorten_free z s url expiry id now hu hfree]
      simp only [List.map_append, List.map_cons, List.map_nil]
      rw [List.nodup_append]
      refine ⟨h, List.nodup_singleton id, ?_⟩
      intro a ha hb
      rw [List.mem_singleton] at hb
      obtain ⟨r, hr, hra⟩ := List.mem_map.1 ha
      exact hfree r hr (hra.trans hb)
    · push_neg at hfree
      obtain ⟨r, hr, hid⟩ := hfree
      rw [shorten_taken z s url expiry id now hu r hr hid]
      exact h
  · have : shorten z s url expiry id now = (s, Response.badRequest) := by
      simp [shorten, hu]
    rw [this]
    exact h

theorem nodup_ids_step (z : Zone) (s : State) (op : Op) (h : (s.rows.map Row.id).Nodup) :
    ((step z s op).rows.map Row.id).Nodup := by
  cases op with
  | create url expiry id now => exact nodup_ids_shorten z s url expiry id now h
  | resolve id now => exact nodup_ids_resolveCallback s id (dbGet s.rows id) now h
  | sweep now => exact nodup_ids_cleanup s now h

theorem nodup_ids_run (z : Zone) (ops : List Op) (s : State) (h : (s.rows.map Row.id).Nodup) :
    ((run z s ops).rows.map Row.id).Nodup := by
  induction ops generalizing s with
  | nil => exact h
  | cons op rest ih => exact ih (step z s op) (nodup_ids_step z s op h)

/-! ## The redirect route -/

/-- C4: for an id with no row in the table, `GET /:id` answers 404 and leaves
the table and all three counters as they were. -/
theorem resolve_unknown (s : State) (id : String) (now : Int)
    (h : ∀ r ∈ s.rows, r.id ≠ id) :
    resolve s id now = (s, Response.notFound) ∧ (resolve s id now).2.status = 404 := by
  have hget : dbGet s.rows id = none := (dbGet_eq_none_iff s.rows id).2 h
  simp [resolve, resolveCallback, hget, Response.status]

theorem resolve_unknown_witness :
    (∀ r ∈ sampleState.rows, r.id ≠ "zzz999") ∧
      resolve sampleState "zzz999" noon = (sampleState, Response.notFound) ∧
      (resolve sampleState "zzz999" noon).2.status = 404 :=
  ⟨by decide, resolve_unknown sampleState "zzz999" noon (by decide)⟩

/-- C2: when the row of `id` has an `expires_at` strictly before `now`,
`GET /:id` answers 410, removes the rows of that id and no other row, adds one
to the expired counter, leaves the other rows (their clicks included) and the
other counters as they were, and any later `GET /:id` of that id answers 404. -/
theorem resolve_expired (s : State) (id : String) (row : Row) (e now : Int)
    (hget : dbGet s.rows id = some row) (hexp : row.expires_at = some e) (hlt : e < now) :
    (resolve s id now).2 = Response.gone ∧
    (resolve s id now).2.status = 410 ∧
    (∀ r, r ∈ (resolve s id now).1.rows ↔ r ∈ s.rows ∧ r.id ≠ id) ∧
    (∀ other, other ≠ id → dbGet (resolve s id now).1.rows other = dbGet s.rows other) ∧
    (resolve s id now).1.urlsExpired = s.urlsExpired + 1 ∧
    (resolve s id now).1.urlsRedirected = s.urlsRedirected ∧
    (resolve s id now).1.urlsCreated = s.urlsCreated ∧
    ∀ later, resolve (resolve s id now).1 id later = ((resolve s id now).1, Response.notFound) ∧
      (resolve (resolve s id now).1 id later).2.status = 404 := by
  have hx : expiredAt row now = true := by simp [expiredAt, hexp, hlt]
  have hr : resolve s id now =
      ({ s with rows := dbDelete s.rows id, urlsExpired := s.urlsExpired + 1 }, Response.gone) := by
    simp [resolve, resolveCallback, hget, hx]
  rw [hr]
  refine ⟨rfl, rfl, ?_, ?_, rfl, rfl, rfl, ?_⟩
  · intro r
    exact mem_dbDelete s.rows id r
  · intro other ho
    exact dbGet_dbDelete_other s.rows id other ho
  · intro later
    have hnone : dbGet (dbDelete s.rows id) id = none := dbGet_dbDelete_self s.rows id
    simp [resolve, resolveCallback, hnone, Response.status]

theorem resolve_expired_witness :
    dbGet sampleState.rows "abc123" = some sampleRow ∧
      sampleRow.expires_at = some 1793959200000 ∧ (1793959200000 : Int) < noon ∧
      (resolve sampleState "abc123" noon).2 = Response.gone ∧
      (resolve sampleState "abc123" noon).1.urlsExpired = sampleState.urlsExpired + 1 :=
  have h := resolve_expired sampleState "abc123" sampleRow 1793959200000 noon
    (by decide) (by decide) (by decide)
  ⟨by decide, by decide, by decide, h.1, h.2.2.2.2.1⟩

/-- C3: when the row of `id` has no `expires_at`, or one that is not strictly
before `now` (equal to `now` included), `GET /:id` redirects to exactly
`row.original`, adds one to the clicks of that row, adds one to the redirect
counter, and changes nothing else: every row keeps its id, original,
expires_at and created_at, rows of other ids keep their clicks, no row is
added or removed, and the other two counters stay. -/
theorem resolve_live (s : State) (id : String) (row : Row) (now : Int)
    (hget : dbGet s.rows id = some row)
    (hlive : row.expires_at = none ∨ ∃ e, row.expires_at = some e ∧ now ≤ e) :
    (resolve s id now).2 = Response.redirect row.original ∧
    dbGet (resolve s id now).1.rows id =
      some ⟨row.id, row.original, row.clicks + 1, row.expires_at, row.created_at⟩ ∧
    (∀ other, other ≠ id → dbGet (resolve s id now).1.rows other = dbGet s.rows other) ∧
    (resolve s id now).1.rows =
      s.rows.map (fun r => if r.id = id then
        ⟨r.id, r.original, r.clicks + 1, r.expires_at, r.created_at⟩ else r) ∧
    (∀ r ∈ s.rows, r.id ≠ id → r ∈ (resolve s id now).1.rows) ∧
    (resolve s id now).1.urlsRedirected = s.urlsRedirected + 1 ∧
    (resolve s id now).1.urlsExpired = s.urlsExpired ∧
    (resolve s id now).1.urlsCreated = s.urlsCreated := by
  have hx : expiredAt row now = false := by
    rcases hlive with h | ⟨e, h, hle⟩
    · simp [expiredAt, h]
    · simp [expiredAt, h, hle]
  have hr : resolve s id now =
      ({ s with rows := dbIncrementClicks s.rows id, urlsRedirected := s.urlsRedirected + 1 },
        Response.redirect row.original) := by
    simp [resolve, resolveCallback, hget, hx]
  rw [hr]
  refine ⟨rfl, ?_, ?_, rfl, ?_, rfl, rfl, rfl⟩
  · exact dbGet_increment_self s.rows id row hget
  · intro other ho
    exact dbGet_increment_other s.rows id other ho
  · intro r hmem hne
    exact mem_dbIncrementClicks_of_ne s.rows id r hmem hne

theorem resolve_live_witness :
    dbGet sampleState.rows "abc123" = some sampleRow ∧
      (sampleRow.expires_at = none ∨ ∃ e, sampleRow.expires_at = some e ∧ 1793959200000 ≤ e) ∧
      (resolve sampleState "abc123" 1793959200000).2 = Response.redirect "https://example.com/a" ∧
      dbGet (resolve sampleState "abc123" 1793959200000).1.rows "abc123" =
        some ⟨"abc123", "https://example.com/a", 1, some 1793959200000, "2026-11-05 10:00:00"⟩ :=
  have hl : sampleRow.expires_at = none ∨
      ∃ e, sampleRow.expires_at = some e ∧ (1793959200000 : Int) ≤ e :=
    Or.inr ⟨1793959200000, rfl, le_refl _⟩
  have h := resolve_live sampleState "abc123" sampleRow 1793959200000 (by decide) hl
  ⟨by decide, hl, h.1, h.2.1⟩

/-! ## The cleanup timer -/

theorem YearFromTime_of_day (a b : Int) (h : Day a = Day b) : YearFromTime a = YearFromTime b := by
  unfold YearFromTime
  rw [h]

theorem MonthFromTime_of_day (a b : Int) (h : Day a = Day b) :
    MonthFromTime a = MonthFromTime b := by
  unfold MonthFromTime DayWithinYear InLeapYear
  rw [YearFromTime_of_day a b h, h]

theorem DateFromTime_of_day (a b : Int) (h : Day a = Day b) : DateFromTime a = DateFromTime b := by
  unfold DateFromTime DayWithinYear InLeapYear
  rw [MonthFromTime_of_day a b h, YearFromTime_of_day a b h, h]

theorem memcmpLt_common_prefix (p a b : List Char) :
    memcmpLt (p ++ a) (p ++ b) = memcmpLt a b := by
  induction p with
  | nil => rfl
  | cons c cs ih => simp [memcmpLt, ih]

/-- The cleanup statement never matches a row whose `expires_at` falls on the
UTC date of the run, whatever the time of day on either side: the two texts
agree on the date and then `T` meets the blank. -/
theorem sweepMatches_same_day (now e : Int) (r : Row) (hr : r.expires_at = some e)
    (hday : Day e = Day now) (hy : 0 ≤ YearFromTime e ∧ YearFromTime e ≤ 9999) :
    sweepMatches now r = false := by
  unfold sweepMatches
  rw [hr]
  simp only [textLt, toISOString, sqliteDatetime, isoYear, if_pos hy]
  rw [← YearFromTime_of_day e now hday, ← MonthFromTime_of_day e now hday,
    ← DateFromTime_of_day e now hday]
  simp only [List.append_assoc, memcmpLt_common_prefix]
  simp [memcmpLt]


/-- C1, at the failing input: the row expired at 2026-11-06T10:00:00.000Z, the
timer runs two hours later, and the row stays, with `changes = 0`: the text
`2026-11-06T10:00:00.000Z` is not smaller than the text `2026-11-06 12:00:00`,
since `T` sorts after the blank. -/
theorem cleanup_keeps_row_expired_same_day :
    (shorten utc State.init (some "https://example.com/a") (some "24h") "abc123"
      1793872800000).1 = sampleState ∧
    sampleRow.expires_at = some 1793959200000 ∧ (1793959200000 : Int) < noon ∧
    toISOString 1793959200000 = "2026-11-06T10:00:00.000Z" ∧
    sqliteDatetime noon = "2026-11-06 12:00:00" ∧
    dbDeleteExpired sampleState.rows noon = ([sampleRow], 0) ∧
    cleanup sampleState noon = sampleState ∧
    (resolve sampleState "abc123" noon).2 = Response.gone := by
  decide

/-- C10, at the failing input: the `SELECT` of a `GET /:id` reads an expired
row, the timer then removes that row and counts it, and the callback of the
`SELECT` deletes nothing and still adds one: one row removed, counter at two. -/
theorem lazy_delete_counts_removed_row_again :
    (shorten utc State.init (some "https://example.com/a") (some "24h") "abc123"
      1793786400000).1 = oldState ∧
    (Sys.run ⟨oldState, [], 0⟩ [Event.select "abc123", Event.tick noon, Event.callback noon]).st
      = ⟨[], 1, 0, 2⟩ ∧
    (Sys.run ⟨oldState, [], 0⟩ [Event.select "abc123", Event.tick noon, Event.callback noon]).removed
      = 1 ∧
    (Sys.run ⟨oldState, [], 0⟩ [Event.select "abc123", Event.tick noon]).st = ⟨[], 1, 0, 1⟩ := by
  decide

/-! ## Link creation -/

/-- C5: when `POST /shorten` succeeds for `url` (whatever the expiry field:
none, 24h, 7d or anything else) and answers with an id, `GET` of that id at the
same instant redirects to exactly `url`: it answers neither 410 nor 404. -/
theorem create_then_resolve (z : Zone) (s : State) (url : String) (expiry : Option String)
    (id : String) (now : Int) (rid : String) (ea : Option Int)
    (h : (shorten z s (some url) expiry id now).2 = Response.created rid ea) :
    (resolve (shorten z s (some url) expiry id now).1 rid now).2 = Response.redirect url ∧
    (resolve (shorten z s (some url) expiry id now).1 rid now).2.status = 302 := by
  obtain ⟨_, hnone, hrid, _, hst⟩ := shorten_created z s (some url) expiry id now rid ea h
  subst hrid
  rw [hst]
  have hget := dbGet_append_new s.rows
    ⟨rid, url, 0, expiryLogic z expiry now, sqliteDatetime now⟩ hnone
  have hx : expiredAt ⟨rid, url, 0, expiryLogic z expiry now, sqliteDatetime now⟩ now = false := by
    unfold expiredAt
    cases he : expiryLogic z expiry now with
    | none => rfl
    | some e =>
      have := expiryLogic_not_before z expiry now e he
      simp only [decide_eq_false_iff_not, not_lt]
      exact this
  simp only [Option.getD_some] at hget ⊢
  simp [resolve, resolveCallback, hget, hx, Response.status]

theorem create_then_resolve_witness :
    (shorten newYork sampleState (some "https://example.com/b") (some "24h") "xyz789"
        1772902800000).2 = Response.created "xyz789" (some 1772985600000) ∧
      (resolve (shorten newYork sampleState (some "https://example.com/b") (some "24h") "xyz789"
        1772902800000).1 "xyz789" 1772902800000).2 = Response.redirect "https://example.com/b" :=
  ⟨by decide,
    (create_then_resolve newYork sampleState "https://example.com/b" (some "24h") "xyz789"
      1772902800000 "xyz789" (some 1772985600000) (by decide)).1⟩

/-- C7: for every expiry field other than `24h` and `7d` (any other string,
the empty string, a missing field), the expiry logic gives `null`, as it does
for `none`; the whole request behaves as with `none`; and with a non-empty url
and a free id the link is created without expiry and redirects at every later
time. -/
theorem expiry_unrecognized (z : Zone) (s : State) (url expiry : Option String) (id : String)
    (now : Int) (h24 : expiry ≠ some "24h") (h7 : expiry ≠ some "7d") :
    expiryLogic z expiry now = none ∧
    expiryLogic z expiry now = expiryLogic z (some "none") now ∧
    shorten z s url expiry id now = shorten z s url (some "none") id now ∧
    (truthy url = true → (∀ r ∈ s.rows, r.id ≠ id) →
      (shorten z s url expiry id now).2 = Response.created id none ∧
      dbGet (shorten z s url expiry id now).1.rows id =
        some ⟨id, url.getD "", 0, none, sqliteDatetime now⟩ ∧
      ∀ later, (resolve (shorten z s url expiry id now).1 id later).2 =
        Response.redirect (url.getD "")) := by
  have he : expiryLogic z expiry now = none := expiryLogic_other z expiry now h24 h7
  have hn : expiryLogic z (some "none") now = none :=
    expiryLogic_other z (some "none") now (by decide) (by decide)
  refine ⟨he, by rw [he, hn], by simp [shorten, he, hn], ?_⟩
  intro hu hfree
  rw [shorten_free z s url expiry id now hu hfree, he]
  have hget := dbGet_append_new s.rows ⟨id, url.getD "", 0, none, sqliteDatetime now⟩
    ((dbGet_eq_none_iff s.rows id).2 hfree)
  refine ⟨rfl, hget, ?_⟩
  intro later
  simp only at hget
  simp [resolve, resolveCallback, hget, expiredAt]

theorem expiry_unrecognized_witness :
    (some "1y" : Option String) ≠ some "24h" ∧ (some "1y" : Option String) ≠ some "7d" ∧
      expiryLogic utc (some "1y") noon = none ∧
      shorten utc sampleState (some "https://example.com/b") (some "1y") "xyz789" noon =
        shorten utc sampleState (some "https://example.com/b") (some "none") "xyz789" noon :=
  have h := expiry_unrecognized utc sampleState (some "https://example.com/b") (some "1y")
    "xyz789" noon (by decide) (by decide)
  ⟨by decide, by decide, h.1, h.2.2.1⟩

/-- Where the zone offset at the resulting local time equals the offset at
`now` (always so in a zone without clock changes, such as UTC), `24h` gives
`now + 86400000` and `7d` gives `now + 604800000`; `none` gives `null`. -/
theorem expiryLogic_same_offset (z : Zone) (now : Int) :
    expiryLogic z (some "none") now = none ∧
    (z.offsetOfLocal (now + z.offsetAt now + 86400000) = z.offsetAt now →
      expiryLogic z (some "24h") now = some (now + 86400000)) ∧
    (z.offsetOfLocal (now + z.offsetAt now + 604800000) = z.offsetAt now →
      expiryLogic z (some "7d") now = some (now + 604800000)) := by
  have hn : expiryLogic z (some "none") now = none :=
    expiryLogic_other z (some "none") now (by decide) (by decide)
  have h24 := expiryLogic_24h z now
  have h7 := expiryLogic_7d z now
  simp only [UTC, LocalTime] at h24 h7
  refine ⟨hn, ?_, ?_⟩
  · intro h; rw [h24, h]; congr 1; omega
  · intro h; rw [h7, h]; congr 1; omega

/-- C6, at the failing input: the process runs in New York and the request
arrives on 2026-03-07 at 17:00:00Z (12:00 local, UTC-5). `getHours() + 24` sets
the local clock to 12:00 on 8 March, which lies after the clock change and is
16:00:00Z: `24h` stores `2026-03-08T16:00:00.000Z`, 82800000 ms (23 hours)
after `now` and not `now + 86400000`; `7d` stores `2026-03-14T16:00:00.000Z`,
601200000 ms (167 hours) after `now` and not `now + 604800000`. The same
request in a process running in UTC gives 24 hours and 168 hours. -/
theorem expiry_across_clock_change :
    toISOString 1772902800000 = "2026-03-07T17:00:00.000Z" ∧
    getHours newYork 1772902800000 = 12 ∧
    expiryLogic newYork (some "24h") 1772902800000 = some (1772902800000 + 82800000) ∧
    expiryLogic newYork (some "24h") 1772902800000 ≠ some (1772902800000 + 86400000) ∧
    (expiryLogic newYork (some "24h") 1772902800000).map toISOString
      = some "2026-03-08T16:00:00.000Z" ∧
    expiryLogic newYork (some "7d") 1772902800000 = some (1772902800000 + 601200000) ∧
    expiryLogic newYork (some "7d") 1772902800000 ≠ some (1772902800000 + 604800000) ∧
    (expiryLogic newYork (some "7d") 1772902800000).map toISOString
      = some "2026-03-14T16:00:00.000Z" ∧
    expiryLogic utc (some "24h") 1772902800000 = some (1772902800000 + 86400000) ∧
    expiryLogic utc (some "7d") 1772902800000 = some (1772902800000 + 604800000) := by
  decide

/-- C8, refuted as stated: the generator returns `abc123`, which is in the
table, and would return `xyz789` next. The retry loop of the specification
gives the record `xyz789`; `POST /shorten` answers 500 and stores nothing. -/
theorem shorten_does_not_retry :
    (specCreate utc sampleState (some "https://example.com/b") (some "none")
      ["abc123", "xyz789"] noon).2 = CreateResult.record "xyz789" none ∧
    shorten utc sampleState (some "https://example.com/b") (some "none")
      (["abc123", "xyz789"].headD "") noon = (sampleState, Response.databaseError) ∧
    (shorten utc sampleState (some "https://example.com/b") (some "none")
      (["abc123", "xyz789"].headD "") noon).2.status = 500 := by
  decide

/-- C8, amended: `POST /shorten` makes one attempt with the one generated id.
When that id is already in the table it answers 500 (the error of the insert
reaches the caller) and leaves table and counters as they were; when the id is
free it stores the record under that id and answers with it. -/
theorem shorten_single_attempt (z : Zone) (s : State) (url expiry : Option String)
    (id : String) (now : Int) (hu : truthy url = true) :
    ((∃ r ∈ s.rows, r.id = id) →
      shorten z s url expiry id now = (s, Response.databaseError) ∧
      (shorten z s url expiry id now).2.status = 500) ∧
    ((∀ r ∈ s.rows, r.id ≠ id) →
      (shorten z s url expiry id now).2 = Response.created id (expiryLogic z expiry now) ∧
      (shorten z s url expiry id now).1.rows =
        s.rows ++ [⟨id, url.getD "", 0, expiryLogic z expiry now, sqliteDatetime now⟩] ∧
      (shorten z s url expiry id now).1.urlsCreated = s.urlsCreated + 1) := by
  constructor
  · rintro ⟨r, hr, hid⟩
    rw [shorten_taken z s url expiry id now hu r hr hid]
    exact ⟨rfl, rfl⟩
  · intro hfree
    rw [shorten_free z s url expiry id now hu hfree]
    exact ⟨rfl, rfl, rfl⟩

theorem shorten_single_attempt_witness :
    truthy (some "https://example.com/b") = true ∧ (∃ r ∈ sampleState.rows, r.id = "abc123") ∧
      shorten utc sampleState (some "https://example.com/b") (some "7d") "abc123" noon =
        (sampleState, Response.databaseError) :=
  have hex : ∃ r ∈ sampleState.rows, r.id = "abc123" :=
    ⟨sampleRow, List.mem_singleton.2 rfl, rfl⟩
  ⟨by decide, hex,
    ((shorten_single_attempt utc sampleState (some "https://example.com/b") (some "7d") "abc123"
      noon (by decide)).1 hex).1⟩

/-- C9: an insert whose id is already in the table fails, and the request
leaves the table (every row with its original, clicks, expires_at and
created_at) and the counters as they were; and after any sequence of creations,
redirects and timer runs from the empty table, no two rows share an id. -/
theorem ids_unique (z : Zone) :
    (∀ (s : State) (url expiry : Option String) (id original : String) (ea : Option Int)
        (now : Int), (∃ r ∈ s.rows, r.id = id) →
        dbInsert s.rows id original ea now = Except.error () ∧
        (shorten z s url expiry id now).1 = s) ∧
    ∀ ops : List Op, ((run z State.init ops).rows.map Row.id).Nodup := by
  constructor
  · rintro s url expiry id original ea now ⟨r, hr, hid⟩
    have hany : s.rows.any (fun r => r.id == id) = true := (any_id_iff s.rows id).2 ⟨r, hr, hid⟩
    refine ⟨by simp [dbInsert, hany], ?_⟩
    by_cases hu : truthy url = true
    · rw [shorten_taken z s url expiry id now hu r hr hid]
    · simp [shorten, hu]
  · intro ops
    exact nodup_ids_run z ops State.init List.nodup_nil

theorem ids_unique_witness :
    (∃ r ∈ sampleState.rows, r.id = "abc123") ∧
      dbInsert sampleState.rows "abc123" "https://example.com/b" none noon = Except.error () ∧
      ((run utc State.init [Op.create (some "https://example.com/a") (some "24h") "abc123" noon,
        Op.create (some "https://example.com/b") none "abc123" noon,
        Op.resolve "abc123" noon, Op.sweep noon]).rows.map Row.id).Nodup :=
  have hex : ∃ r ∈ sampleState.rows, r.id = "abc123" :=
    ⟨sampleRow, List.mem_singleton.2 rfl, rfl⟩
  ⟨hex,
    ((ids_unique utc).1 sampleState none none "abc123" "https://example.com/b" none noon hex).1,
    (ids_unique utc).2 _⟩

end SmartLink
